import Mathlib

/-!
Verification of the FlagScatter "battle royale" simulation
(src/components/FlagScatter.tsx).

The development is a shallow embedding of the program in two layers.

Layer 1 (exact arithmetic): the numeric helpers of the source are embedded
over exact fields.  `normalizeAngle`, the JS remainder (`jsRem`, truncated
division as in JavaScript's `%`), and the gap-membership test `isInsideGap`
are embedded over `ℚ`; the elastic-reflection and penetration-correction
formulas of the bounce branch (`reflectVel`, `bounceCorrect`) and the
formation placement (`formationPos`) are embedded over `ℝ` (the source
computes them in floating point; the claims about them are stated for exact
real arithmetic).

Layer 2 (round/loop state machine): the per-frame callback of
`useAnimationFrame`, `initializeGame`, the timers, the leaderboard update,
and the winner check are embedded as a transition system over `SimState`.
The status/lifecycle bookkeeping (the sequential `forEach` with its running
`activeCount` and `potentialWinner`, the `isInsideGap && activeCount > 1`
elimination guard, the vanish check, the winner check gated by `isRunning`,
and the `setTimeout`/`clearTimeout` scheduling) is embedded faithfully; the
floating-point geometry that *feeds* the per-flag boolean tests
(`dist + FLAG_RADIUS >= BOUNDARY_RADIUS`, the `isInsideGap` result, and
`dist > BOUNDARY_RADIUS * 2.5`) is supplied per frame and per flag by an
environment `env : Nat → FrameEvt`, since those inputs also depend on
`Math.random`.  The geometric predicates themselves are verified in
Layer 1.

Two flag lists are kept, exactly as in the source: `flags` models
`physicsRef.current.flags` (mutated in place by the frame loop; the winner
assignment does *not* write to it) and `viewFlags` models the React state
`flags` (replaced by `finalFlags` when a winner is detected).
-/

/-- Configuration constants of the source (`--- CONFIGURATION ---` block),
for the real-valued geometry layer. -/
def BOUNDARY_RADIUS : ℝ := 160

/-- Approximation of flag size for collision (source constant). -/
def FLAG_RADIUS : ℝ := 12

/-- Initial formation radius (source constant). -/
def INITIAL_RADIUS : ℝ := 95

/-- Gap tolerance in degrees (source constant), used by the gap test. -/
def GAP_TOLERANCE : ℚ := 4

/-- Ring rotation speed in degrees per frame (source constant). -/
def ROTATION_SPEED : ℚ := 8 / 10

/-- Truncation toward zero, the rounding used by JavaScript's `%`. -/
def qtrunc (q : ℚ) : ℤ := if 0 ≤ q then ⌊q⌋ else ⌈q⌉

/-- JavaScript's remainder `x % y`: `x - y * trunc (x / y)`. -/
def jsRem (x y : ℚ) : ℚ := x - y * (qtrunc (x / y) : ℚ)

/-- `normalizeAngle` from the source: `a = angle % 360; if (a < 0) a += 360`. -/
def normalizeAngle (angle : ℚ) : ℚ :=
  let a := jsRem angle 360
  if a < 0 then a + 360 else a

/-- The live-gap membership test of the scatter collision branch: rotate the
local gap bounds by the ring angle, widen each end by `GAP_TOLERANCE`,
normalize, then test either as a bounded interval or, when the normalized
interval wraps past 0°/360°, as a disjunction. -/
def isInsideGap (gapS gapE ringAng flagAngle : ℚ) : Bool :=
  let s := normalizeAngle (gapS + ringAng - GAP_TOLERANCE)
  let e := normalizeAngle (gapE + ringAng + GAP_TOLERANCE)
  if s < e then decide (s ≤ flagAngle) && decide (flagAngle ≤ e)
  else decide (s ≤ flagAngle) || decide (flagAngle ≤ e)

/-- Velocity reflection of the bounce branch: `v' = v - 2 (v·n) n` with
`n = (nx, ny)` the outward unit normal at the collision point. -/
def reflectVel (vx vy nx ny : ℝ) : ℝ × ℝ :=
  (vx - 2 * (vx * nx + vy * ny) * nx, vy - 2 * (vx * nx + vy * ny) * ny)

/-- Position correction of the bounce branch: push the flag back along the
normal by `overlap = dist + FLAG_RADIUS - BOUNDARY_RADIUS`. -/
def bounceCorrect (x y nx ny dist : ℝ) : ℝ × ℝ :=
  (x - nx * (dist + FLAG_RADIUS - BOUNDARY_RADIUS),
   y - ny * (dist + FLAG_RADIUS - BOUNDARY_RADIUS))

/-- Formation placement of `initializeGame`: participant `i` of `total` is
placed at `theta = (i / total) * 2π` on the circle of radius
`INITIAL_RADIUS`. -/
noncomputable def formationPos (total i : ℕ) : ℝ × ℝ :=
  (INITIAL_RADIUS * Real.cos (((i : ℝ) / (total : ℝ)) * (2 * Real.pi)),
   INITIAL_RADIUS * Real.sin (((i : ℝ) / (total : ℝ)) * (2 * Real.pi)))

/-- Participant lifecycle status (`FlagStatus` in src/types.ts). -/
inductive FlagStatus
  | active
  | exiting
  | eliminated
  | winner
deriving DecidableEq

/-- A participant, restricted to the fields the lifecycle logic reads
(identity and status); the floating-point physics record is abstracted by
the frame environment (see module comment). -/
structure CountryFlag where
  code : String
  name : String
  status : FlagStatus
deriving DecidableEq

/-- Round phase (`physicsRef.current.phase`). -/
inductive Phase
  | formation
  | scatter
deriving DecidableEq

/-- The two deferred callbacks the component schedules: the
formation→scatter transition (`startTimeoutRef`, 2000 ms) and the automatic
round restart after a win (5000 ms). -/
inductive TimerAction
  | phaseToScatter
  | restartRound
deriving DecidableEq

/-- A scheduled `setTimeout`: its handle, what its callback does, and its
delay in milliseconds. -/
structure Timer where
  id : Nat
  action : TimerAction
  delay : Nat
deriving DecidableEq

/-- A leaderboard entry (`LeaderboardEntry` in the source). -/
structure LBEntry where
  code : String
  name : String
  wins : Nat
deriving DecidableEq

/-- Per-flag outcome of the floating-point geometry for one frame:
whether `dist + FLAG_RADIUS >= BOUNDARY_RADIUS` held for an active flag,
whether its normalized `atan2` angle fell inside the live gap
(`isInsideGap`), and whether an exiting flag passed the vanish radius
`BOUNDARY_RADIUS * 2.5`. -/
structure FrameEvt where
  hit : Bool
  inGap : Bool
  vanished : Bool
deriving DecidableEq

/-- Combined component state: the physics ref (`flags`, `ringAngle`,
`isRunning`, `phase`, `gapStart`, `gapEnd`), the React state mirrored by
the loop (`viewFlags`, `winner`, `leaderboard`, `visualPathLength`), and
the event queue of pending timeouts. -/
structure SimState where
  flags : List CountryFlag
  viewFlags : List CountryFlag
  winner : Option (String × String)
  leaderboard : List LBEntry
  ringAngle : ℚ
  isRunning : Bool
  phase : Phase
  gapStart : ℚ
  gapEnd : ℚ
  visualPathLength : ℚ
  pending : List Timer
  nextTimerId : Nat
  startTimeoutId : Option Nat
deriving DecidableEq

/-- Count of flags with status `active` (the loop's `activeCount` tallies
exactly these, since a flag's status is only written during its own
iteration). -/
def activeCount (fs : List CountryFlag) : Nat :=
  fs.countP (fun f => decide (f.status = FlagStatus.active))

/-- Count of flags with status `winner`. -/
def winnersCount (fs : List CountryFlag) : Nat :=
  fs.countP (fun f => decide (f.status = FlagStatus.winner))

/-- No flag of the list holds status `winner`. -/
def noWinnerIn (fs : List CountryFlag) : Prop :=
  ∀ f ∈ fs, f.status ≠ FlagStatus.winner

/-- The participant codes are pairwise distinct (true of the fixed roster,
which has one entry per country code). -/
def NodupCodes (fs : List CountryFlag) : Prop :=
  (fs.map (fun f => f.code)).Nodup

/-- The status update applied to one flag inside the `forEach` body, given
its frame event and the value of the running `activeCount` right after this
flag was tallied.  Formation phase only rotates positions; in scatter
phase an active flag on the boundary is eliminated exactly when its angle
is inside the live gap *and* `activeCount > 1` (otherwise it bounces,
which leaves the status unchanged), and an exiting flag past the vanish
radius becomes eliminated. -/
def passFlag (evt : FrameEvt) (ph : Phase) (cnt : Nat) (f : CountryFlag) : CountryFlag :=
  match ph with
  | Phase.formation => f
  | Phase.scatter =>
    match f.status with
    | FlagStatus.active =>
        if evt.hit && evt.inGap && decide (1 < cnt) then
          { f with status := FlagStatus.exiting }
        else f
    | FlagStatus.exiting =>
        if evt.vanished then { f with status := FlagStatus.eliminated } else f
    | _ => f

/-- The sequential `forEach` over the flags: `i` is the position of the
head flag (used to index the frame environment), `cnt` and `pw` are the
running `activeCount` and `potentialWinner` (the loop records the flag
reference; only its `code` and `name` are read afterwards, so the pair is
captured).  Eliminated flags are skipped by the early `return`. -/
def runPass (env : Nat → FrameEvt) (ph : Phase) :
    Nat → Nat → Option (String × String) → List CountryFlag →
    List CountryFlag × Nat × Option (String × String)
  | _, cnt, pw, [] => ([], cnt, pw)
  | i, cnt, pw, f :: fs =>
    if f.status = FlagStatus.eliminated then
      let r := runPass env ph (i + 1) cnt pw fs
      (f :: r.1, r.2.1, r.2.2)
    else
      let cnt2 := if f.status = FlagStatus.active then cnt + 1 else cnt
      let pw2 := if f.status = FlagStatus.active then some (f.code, f.name) else pw
      let r := runPass env ph (i + 1) cnt2 pw2 fs
      (passFlag (env i) ph cnt2 f :: r.1, r.2.1, r.2.2)

/-- The `setLeaderboard` updater of the winner block: increment the entry
with the winner's code if present, otherwise append a fresh entry with one
win, then sort descending by win count.  JavaScript's comparator
`(a, b) => b.wins - a.wins` sorts descending by `wins`; the model uses
insertion sort with the corresponding relation (the spec leaves tie order
unspecified). -/
def updateLeaderboard (prev : List LBEntry) (wcode wname : String) : List LBEntry :=
  let newState :=
    match prev.find? (fun p => p.code == wcode) with
    | some _ => prev.map (fun p => if p.code = wcode then { p with wins := p.wins + 1 } else p)
    | none => prev ++ [LBEntry.mk wcode wname 1]
  List.insertionSort (fun a b => b.wins ≤ a.wins) newState

/-- `finalFlags` of the winner block: mark every flag whose code equals the
winner's code with status `winner`. -/
def winnerMap (wcode : String) (fs : List CountryFlag) : List CountryFlag :=
  fs.map (fun f => if f.code = wcode then { f with status := FlagStatus.winner } else f)

/-- One invocation of the `useAnimationFrame` callback.  No-op when not
running or when the flag set is empty; otherwise advance the ring angle,
run the per-flag pass, and when in scatter phase exactly one flag was
counted active (and a `potentialWinner` was recorded), run the
single-survivor block: stop the loop, record the winner, update the
leaderboard, publish `finalFlags` to the React flag state, and schedule the
automatic restart — whose `setTimeout` handle is discarded by the source,
so it is appended to the queue without being remembered anywhere. -/
def frameStep (env : Nat → FrameEvt) (s : SimState) : SimState :=
  if s.isRunning = false ∨ s.flags = [] then s
  else
    let ra2 := jsRem (s.ringAngle + ROTATION_SPEED) 360
    let r := runPass env s.phase 0 0 none s.flags
    match r.2.2 with
    | none => { s with flags := r.1, ringAngle := ra2 }
    | some w =>
        if s.phase = Phase.scatter ∧ r.2.1 = 1 then
          { s with
            flags := r.1,
            ringAngle := ra2,
            isRunning := false,
            winner := some w,
            leaderboard := updateLeaderboard s.leaderboard w.1 w.2,
            viewFlags := winnerMap w.1 r.1,
            pending := s.pending ++ [Timer.mk s.nextTimerId TimerAction.restartRound 5000],
            nextTimerId := s.nextTimerId + 1 }
        else { s with flags := r.1, ringAngle := ra2 }

/-- `initializeGame`: clear the timeout stored in `startTimeoutRef` (the
only handle the component keeps), reset winner and physics state, fix the
45° gap as the topmost arc `[315, 360)` of the ring's local frame, rebuild
the flag list from the (externally shuffled) roster with every status
`active`, and schedule the formation→scatter transition after 2000 ms,
remembering its handle in `startTimeoutRef`. -/
def initializeGame (roster : List (String × String)) (s : SimState) : SimState :=
  let pending1 :=
    match s.startTimeoutId with
    | some h => s.pending.filter (fun t => decide (t.id ≠ h))
    | none => s.pending
  let gapDegrees : ℚ := 45
  let fl := roster.map (fun c => CountryFlag.mk c.1 c.2 FlagStatus.active)
  { flags := fl
    viewFlags := fl
    winner := none
    leaderboard := s.leaderboard
    ringAngle := 0
    isRunning := true
    phase := Phase.formation
    gapStart := 360 - gapDegrees
    gapEnd := 360
    visualPathLength := (360 - gapDegrees) / 360
    pending := pending1 ++ [Timer.mk s.nextTimerId TimerAction.phaseToScatter 2000]
    nextTimerId := s.nextTimerId + 1
    startTimeoutId := some s.nextTimerId }

/-- Delivery of a scheduled timeout from the single-threaded event queue:
if the handle is still pending, remove it and run its callback — the
formation→scatter closure sets `phase` to scatter; the restart closure
calls `initializeGame` (with a freshly shuffled roster). -/
def fireTimer (roster : List (String × String)) (tid : Nat) (s : SimState) : SimState :=
  match s.pending.find? (fun t => t.id == tid) with
  | none => s
  | some t =>
      let s2 := { s with pending := s.pending.filter (fun u => decide (u.id ≠ tid)) }
      match t.action with
      | TimerAction.phaseToScatter => { s2 with phase := Phase.scatter }
      | TimerAction.restartRound => initializeGame roster s2

/-- Allowed per-frame status moves: stay, `active → exiting`,
`active → winner`, `exiting → eliminated`. -/
def statusStepOK (a b : FlagStatus) : Prop :=
  a = b ∨ (a = FlagStatus.active ∧ b = FlagStatus.exiting) ∨
    (a = FlagStatus.active ∧ b = FlagStatus.winner) ∨
    (a = FlagStatus.exiting ∧ b = FlagStatus.eliminated)

instance lbDescDecidable : DecidableRel (fun a b : LBEntry => b.wins ≤ a.wins) :=
  fun a b => Nat.decLe b.wins a.wins

instance lbDescTotal : IsTotal LBEntry (fun a b => b.wins ≤ a.wins) :=
  ⟨fun a b => Nat.le_total b.wins a.wins⟩

instance lbDescTrans : IsTrans LBEntry (fun a b => b.wins ≤ a.wins) :=
  ⟨fun _ _ _ hab hbc => le_trans hbc hab⟩

/-! ## Concrete scenarios

Small concrete rounds used to exercise the model: a two-flag roster, the
frame environments that drive one flag through the gap and off the vanish
radius, and the state right after mount (the initial value of
`physicsRef.current`, whose defaults are `gapStart = 306`, `gapEnd = 360`,
`isRunning = true`, `phase = formation`, before the mount effect calls
`initializeGame`). -/

def demoRoster : List (String × String) := [("us", "USA"), ("gb", "UK")]

def demoFlags2 : List CountryFlag :=
  [CountryFlag.mk "us" "USA" FlagStatus.active, CountryFlag.mk "gb" "UK" FlagStatus.active]

def demoEnvNone : Nat → FrameEvt := fun _ => FrameEvt.mk false false false

def demoEnvGapAt1 : Nat → FrameEvt :=
  fun j => if j = 1 then FrameEvt.mk true true false else FrameEvt.mk false false false

def demoEnvVanish : Nat → FrameEvt := fun _ => FrameEvt.mk false false true

def demoMountState : SimState :=
  { flags := [], viewFlags := [], winner := none, leaderboard := [], ringAngle := 0,
    isRunning := true, phase := Phase.formation, gapStart := 306, gapEnd := 360,
    visualPathLength := 85 / 100, pending := [], nextTimerId := 0, startTimeoutId := none }

/-- A scatter-phase round with both demo flags still active. -/
def c1demoState : SimState :=
  { flags := demoFlags2, viewFlags := demoFlags2, winner := none, leaderboard := [],
    ringAngle := 0, isRunning := true, phase := Phase.scatter, gapStart := 315, gapEnd := 360,
    visualPathLength := 7 / 8, pending := [], nextTimerId := 0, startTimeoutId := none }

/-- A scatter-phase round with one active flag and one eliminated flag:
the next frame fires the single-survivor handler. -/
def c3demoState : SimState :=
  { flags := [CountryFlag.mk "us" "USA" FlagStatus.active,
              CountryFlag.mk "gb" "UK" FlagStatus.eliminated],
    viewFlags := [CountryFlag.mk "us" "USA" FlagStatus.active,
                  CountryFlag.mk "gb" "UK" FlagStatus.eliminated],
    winner := none, leaderboard := [], ringAngle := 0, isRunning := true,
    phase := Phase.scatter, gapStart := 315, gapEnd := 360, visualPathLength := 7 / 8,
    pending := [], nextTimerId := 0, startTimeoutId := none }

/-- The C2 trace: mount, round start, scatter, one elimination, win (which
schedules the restart with handle 1, remembered nowhere), then a forced new
round, its phase transition, and finally the stale restart delivery. -/
def c2s1 : SimState := initializeGame demoRoster demoMountState

def c2s2 : SimState := fireTimer demoRoster 0 c2s1

def c2s3 : SimState := frameStep demoEnvGapAt1 c2s2

def c2s4 : SimState := frameStep demoEnvVanish c2s3

def c2s5 : SimState := initializeGame demoRoster c2s4

def c2s6 : SimState := fireTimer demoRoster 2 c2s5

def c2s7 : SimState := fireTimer demoRoster 1 c2s6

/-! ## Layer 1 theorems: exact-arithmetic geometry -/

/-- `normalizeAngle` computes the fractional part of `x / 360`, scaled back
to degrees — the bridge between the JS truncated remainder plus the
negative-branch fixup and the mathematical mod-360 reduction. -/
theorem normalizeAngle_eq_fract (x : ℚ) :
    normalizeAngle x = 360 * Int.fract (x / 360) := by
  have hx : x = 360 * (x / 360) := by field_simp
  simp only [normalizeAngle, jsRem, qtrunc]
  set q := x / 360 with hq
  by_cases h0 : 0 ≤ q
  · rw [if_pos h0]
    have hfr : Int.fract q = q - ⌊q⌋ := (Int.self_sub_floor q).symm
    have hnn : ¬ (x - 360 * ((⌊q⌋ : ℤ) : ℚ) < 0) := by
      push_neg
      nlinarith [Int.floor_le q]
    rw [if_neg hnn, hfr]
    linear_combination hx
  · rw [if_neg h0]
    rcases eq_or_ne (Int.fract q) 0 with hf | hf
    · have hfr : q - ⌊q⌋ = Int.fract q := Int.self_sub_floor q
      have hqf : q = ((⌊q⌋ : ℤ) : ℚ) := by
        rw [hf] at hfr
        linarith
      have hceil : (⌈q⌉ : ℤ) = ⌊q⌋ := by
        rw [show q = ((⌊q⌋ : ℤ) : ℚ) from hqf]
        simp
      rw [hceil]
      have hz : x - 360 * ((⌊q⌋ : ℤ) : ℚ) = 0 := by
        linear_combination hx + 360 * hqf
      rw [hz, hf]
      norm_num
    · have hfpos : 0 < Int.fract q :=
        lt_of_le_of_ne (Int.fract_nonneg q) (Ne.symm hf)
      have hfr : q - ⌊q⌋ = Int.fract q := Int.self_sub_floor q
      have hflt : ((⌊q⌋ : ℤ) : ℚ) < q := by linarith
      have hceil : (⌈q⌉ : ℤ) = ⌊q⌋ + 1 := by
        apply le_antisymm
        · exact Int.ceil_le.mpr (by push_cast; linarith [Int.lt_floor_add_one q])
        · exact Int.add_one_le_ceil_iff.mpr hflt
      rw [hceil]
      have ha : x - 360 * (((⌊q⌋ + 1 : ℤ)) : ℚ) = 360 * Int.fract q - 360 := by
        push_cast
        linear_combination hx + 360 * hfr
      rw [ha]
      have hlt : 360 * Int.fract q - 360 < 0 := by
        nlinarith [Int.fract_lt_one q]
      rw [if_pos hlt]
      ring

/-- C8: `normalizeAngle x` always lies in `[0, 360)`, and shifting the
input by any whole number of turns (`360 k`, `k : ℤ`) does not change the
result. -/
theorem c8_normalize_range_period (x : ℚ) (k : ℤ) :
    0 ≤ normalizeAngle x ∧ normalizeAngle x < 360 ∧
      normalizeAngle (x + 360 * (k : ℚ)) = normalizeAngle x := by
  have h1 := normalizeAngle_eq_fract x
  have h2 := normalizeAngle_eq_fract (x + 360 * (k : ℚ))
  refine ⟨?_, ?_, ?_⟩
  · rw [h1]
    nlinarith [Int.fract_nonneg (x / 360)]
  · rw [h1]
    nlinarith [Int.fract_lt_one (x / 360)]
  · rw [h1, h2]
    have hdiv : (x + 360 * (k : ℚ)) / 360 = x / 360 + (k : ℚ) := by
      field_simp
      ring
    rw [hdiv, Int.fract_add_int]

/-- C4: the live-gap test equals the rotated, tolerance-widened interval
test, read as a bounded interval when the normalized start is below the
normalized end and as a wrapped disjunction otherwise; concretely, for the
gap `[340, 360)` with tolerance 4 at ring angle 0, the angle 350 is inside
and 170 is outside. -/
theorem c4_gap_membership :
    (∀ gS gE rA a : ℚ,
      isInsideGap gS gE rA a = true ↔
        (if normalizeAngle (gS + rA - GAP_TOLERANCE) <
            normalizeAngle (gE + rA + GAP_TOLERANCE) then
          normalizeAngle (gS + rA - GAP_TOLERANCE) ≤ a ∧
            a ≤ normalizeAngle (gE + rA + GAP_TOLERANCE)
        else
          normalizeAngle (gS + rA - GAP_TOLERANCE) ≤ a ∨
            a ≤ normalizeAngle (gE + rA + GAP_TOLERANCE)))
    ∧ isInsideGap 340 360 0 350 = true ∧ isInsideGap 340 360 0 170 = false := by
  refine ⟨?_, ?_, ?_⟩
  · intro gS gE rA a
    by_cases hlt : normalizeAngle (gS + rA - GAP_TOLERANCE) <
        normalizeAngle (gE + rA + GAP_TOLERANCE)
    · simp [isInsideGap, hlt]
    · simp [isInsideGap, hlt]
  · norm_num [isInsideGap, normalizeAngle, jsRem, qtrunc, GAP_TOLERANCE]
  · norm_num [isInsideGap, normalizeAngle, jsRem, qtrunc, GAP_TOLERANCE]

/-- C5: elastic reflection across a unit normal preserves the squared
speed exactly (before the random perturbation that the source adds
afterwards). -/
theorem c5_reflection_preserves_speed (vx vy nx ny : ℝ)
    (hn : nx ^ 2 + ny ^ 2 = 1) :
    (reflectVel vx vy nx ny).1 ^ 2 + (reflectVel vx vy nx ny).2 ^ 2 =
      vx ^ 2 + vy ^ 2 := by
  simp only [reflectVel]
  linear_combination (4 * (vx * nx + vy * ny) ^ 2) * hn

theorem c5_witness :
    (1 : ℝ) ^ 2 + 0 ^ 2 = 1 ∧
      (reflectVel 3 4 1 0).1 ^ 2 + (reflectVel 3 4 1 0).2 ^ 2 =
        (3 : ℝ) ^ 2 + 4 ^ 2 :=
  ⟨by norm_num, c5_reflection_preserves_speed 3 4 1 0 (by norm_num)⟩

/-- C10: the overlap push-back of the bounce branch lands the flag exactly
on the circle of radius `BOUNDARY_RADIUS - FLAG_RADIUS`: the corrected
position's squared distance from the center equals
`(BOUNDARY_RADIUS - FLAG_RADIUS)^2`, so a bounced flag does not remain
beyond the boundary.  Here `dist` is the pre-correction radial distance
and `(nx, ny) = (x, y) / dist` the outward normal the source divides out. -/
theorem c10_bounce_depenetration (x y nx ny dist : ℝ)
    (hpos : 0 < dist) (hx : nx * dist = x) (hy : ny * dist = y)
    (hd : dist ^ 2 = x ^ 2 + y ^ 2)
    (_hhit : BOUNDARY_RADIUS ≤ dist + FLAG_RADIUS) :
    (bounceCorrect x y nx ny dist).1 ^ 2 + (bounceCorrect x y nx ny dist).2 ^ 2 =
      (BOUNDARY_RADIUS - FLAG_RADIUS) ^ 2 := by
  have hd2 : dist ^ 2 ≠ 0 := pow_ne_zero 2 (ne_of_gt hpos)
  have key : (nx ^ 2 + ny ^ 2) * dist ^ 2 = 1 * dist ^ 2 := by
    linear_combination (nx * dist + x) * hx + (ny * dist + y) * hy - hd
  have hunit : nx ^ 2 + ny ^ 2 = 1 := mul_right_cancel₀ hd2 key
  subst hx
  subst hy
  simp only [bounceCorrect, BOUNDARY_RADIUS, FLAG_RADIUS]
  linear_combination (148 : ℝ) ^ 2 * hunit

theorem c10_witness :
    (bounceCorrect 160 0 1 0 160).1 ^ 2 + (bounceCorrect 160 0 1 0 160).2 ^ 2 =
      (BOUNDARY_RADIUS - FLAG_RADIUS) ^ 2 :=
  c10_bounce_depenetration 160 0 1 0 160 (by norm_num) (by norm_num) (by norm_num)
    (by norm_num) (by norm_num [BOUNDARY_RADIUS, FLAG_RADIUS])

/-! ## Leaderboard -/

/-- C7: the leaderboard updater increments the winner's entry when its code
is present and inserts a fresh entry with one win otherwise (up to the
re-sort, stated as a permutation), the result is always sorted descending
by win count, and after rounds won by codes A, A, B, the list is exactly
A with 2 wins before B with 1 win. -/
theorem c7_leaderboard :
    (updateLeaderboard (updateLeaderboard (updateLeaderboard [] "A" "Alpha") "A" "Alpha") "B" "Beta"
        = [LBEntry.mk "A" "Alpha" 2, LBEntry.mk "B" "Beta" 1])
    ∧ (∀ prev wcode wname,
        List.Sorted (fun a b : LBEntry => b.wins ≤ a.wins)
          (updateLeaderboard prev wcode wname))
    ∧ (∀ prev wcode wname,
        ((prev.find? (fun p => p.code == wcode)).isSome = true →
          List.Perm (updateLeaderboard prev wcode wname)
            (prev.map (fun p => if p.code = wcode then { p with wins := p.wins + 1 } else p)))
        ∧ ((prev.find? (fun p => p.code == wcode)).isSome = false →
          List.Perm (updateLeaderboard prev wcode wname)
            (prev ++ [LBEntry.mk wcode wname 1]))) := by
  refine ⟨by decide, ?_, ?_⟩
  · intro prev wcode wname
    exact List.sorted_insertionSort _ _
  · intro prev wcode wname
    constructor
    · intro hfound
      unfold updateLeaderboard
      rcases hsome : prev.find? (fun p => p.code == wcode) with _ | e
      · rw [hsome] at hfound
        simp at hfound
      · rw [hsome]
        exact List.perm_insertionSort _ _
    · intro hnone
      unfold updateLeaderboard
      rcases hsome : prev.find? (fun p => p.code == wcode) with _ | e
      · rw [hsome]
        exact List.perm_insertionSort _ _
      · rw [hsome] at hnone
        simp at hnone

theorem c7_witness :
    List.Perm (updateLeaderboard [LBEntry.mk "A" "Alpha" 1] "A" "Alpha")
      ([LBEntry.mk "A" "Alpha" 1].map
        (fun p => if p.code = "A" then { p with wins := p.wins + 1 } else p)) :=
  (c7_leaderboard.2.2 [LBEntry.mk "A" "Alpha" 1] "A" "Alpha").1 (by decide)

/-! ## Layer 2 helper lemmas: the per-flag pass -/

theorem passFlag_formation (evt : FrameEvt) (cnt : Nat) (f : CountryFlag) :
    passFlag evt Phase.formation cnt f = f := rfl

theorem passFlag_status_or (evt : FrameEvt) (ph : Phase) (cnt : Nat) (f : CountryFlag) :
    passFlag evt ph cnt f = f ∨
    (f.status = FlagStatus.active ∧
      passFlag evt ph cnt f = { f with status := FlagStatus.exiting } ∧
      evt.hit = true ∧ evt.inGap = true ∧ 1 < cnt ∧ ph = Phase.scatter) ∨
    (f.status = FlagStatus.exiting ∧
      passFlag evt ph cnt f = { f with status := FlagStatus.eliminated } ∧
      evt.vanished = true ∧ ph = Phase.scatter) := by
  cases ph
  · exact Or.inl rfl
  · cases hs : f.status
    case active =>
      by_cases hcond : (evt.hit && evt.inGap && decide (1 < cnt)) = true
      · have hc2 := hcond
        simp only [Bool.and_eq_true, decide_eq_true_eq] at hc2
        right
        left
        exact ⟨rfl, by simp [passFlag, hs, hcond], hc2.1.1, hc2.1.2, hc2.2, rfl⟩
      · left
        simp [passFlag, hs, hcond]
    case exiting =>
      by_cases hv : evt.vanished = true
      · right
        right
        exact ⟨rfl, by simp [passFlag, hs, hv], hv, rfl⟩
      · left
        simp [passFlag, hs, hv]
    case eliminated =>
      left
      simp [passFlag, hs]
    case winner =>
      left
      simp [passFlag, hs]

theorem passFlag_eliminated (evt : FrameEvt) (ph : Phase) (cnt : Nat) (f : CountryFlag)
    (h : f.status = FlagStatus.eliminated) : passFlag evt ph cnt f = f := by
  rcases passFlag_status_or evt ph cnt f with he | ⟨ha, _⟩ | ⟨hx, _⟩
  · exact he
  · rw [h] at ha
    cases ha
  · rw [h] at hx
    cases hx

theorem passFlag_code (evt : FrameEvt) (ph : Phase) (cnt : Nat) (f : CountryFlag) :
    (passFlag evt ph cnt f).code = f.code := by
  rcases passFlag_status_or evt ph cnt f with he | ⟨_, he, _⟩ | ⟨_, he, _⟩ <;> rw [he]

theorem passFlag_stepOK (evt : FrameEvt) (ph : Phase) (cnt : Nat) (f : CountryFlag) :
    statusStepOK f.status (passFlag evt ph cnt f).status := by
  rcases passFlag_status_or evt ph cnt f with he | ⟨ha, he, _⟩ | ⟨hx, he, _⟩
  · rw [he]
    exact Or.inl rfl
  · rw [he]
    exact Or.inr (Or.inl ⟨ha, rfl⟩)
  · rw [he]
    exact Or.inr (Or.inr (Or.inr ⟨hx, rfl⟩))

theorem passFlag_not_winner (evt : FrameEvt) (ph : Phase) (cnt : Nat) (f : CountryFlag)
    (h : f.status ≠ FlagStatus.winner) :
    (passFlag evt ph cnt f).status ≠ FlagStatus.winner := by
  rcases passFlag_status_or evt ph cnt f with he | ⟨_, he, _⟩ | ⟨_, he, _⟩ <;> rw [he] <;> simp_all

theorem passFlag_active_bounce (evt : FrameEvt) (ph : Phase) (cnt : Nat) (f : CountryFlag)
    (ha : f.status = FlagStatus.active) (hc : ¬ 1 < cnt) : passFlag evt ph cnt f = f := by
  rcases passFlag_status_or evt ph cnt f with he | ⟨_, _, _, _, hcnt, _⟩ | ⟨hx, _⟩
  · exact he
  · exact absurd hcnt hc
  · rw [ha] at hx
    cases hx

theorem passFlag_exit_guard (evt : FrameEvt) (ph : Phase) (cnt : Nat) (f : CountryFlag)
    (ha : f.status = FlagStatus.active)
    (hex : (passFlag evt ph cnt f).status = FlagStatus.exiting) :
    evt.hit = true ∧ evt.inGap = true ∧ 1 < cnt ∧ ph = Phase.scatter := by
  rcases passFlag_status_or evt ph cnt f with he | ⟨_, _, h1, h2, h3, h4⟩ | ⟨hx, _⟩
  · rw [he, ha] at hex
    cases hex
  · exact ⟨h1, h2, h3, h4⟩
  · rw [ha] at hx
    cases hx

theorem activeCount_nil : activeCount [] = 0 := rfl

theorem activeCount_cons (f : CountryFlag) (fs : List CountryFlag) :
    activeCount (f :: fs) =
      activeCount fs + (if f.status = FlagStatus.active then 1 else 0) := by
  simp [activeCount, List.countP_cons]

theorem activeCount_take_le (fs : List CountryFlag) (n : Nat) :
    activeCount (fs.take n) ≤ activeCount fs :=
  (List.take_sublist n fs).countP_le _

theorem runPass_nil (env : Nat → FrameEvt) (ph : Phase) (i cnt : Nat)
    (pw : Option (String × String)) : runPass env ph i cnt pw [] = ([], cnt, pw) := rfl

theorem runPass_cons_elim (env : Nat → FrameEvt) (ph : Phase) (i cnt : Nat)
    (pw : Option (String × String)) (f : CountryFlag) (fs : List CountryFlag)
    (he : f.status = FlagStatus.eliminated) :
    runPass env ph i cnt pw (f :: fs) =
      (f :: (runPass env ph (i + 1) cnt pw fs).1, (runPass env ph (i + 1) cnt pw fs).2) := by
  simp [runPass, he]

theorem runPass_cons_other (env : Nat → FrameEvt) (ph : Phase) (i cnt : Nat)
    (pw : Option (String × String)) (f : CountryFlag) (fs : List CountryFlag)
    (he : ¬ f.status = FlagStatus.eliminated) :
    runPass env ph i cnt pw (f :: fs) =
      (passFlag (env i) ph (if f.status = FlagStatus.active then cnt + 1 else cnt) f ::
        (runPass env ph (i + 1) (if f.status = FlagStatus.active then cnt + 1 else cnt)
          (if f.status = FlagStatus.active then some (f.code, f.name) else pw) fs).1,
       (runPass env ph (i + 1) (if f.status = FlagStatus.active then cnt + 1 else cnt)
          (if f.status = FlagStatus.active then some (f.code, f.name) else pw) fs).2) := by
  simp [runPass, he]

theorem runPass_length (env : Nat → FrameEvt) (ph : Phase) (fs : List CountryFlag) :
    ∀ (i cnt : Nat) (pw : Option (String × String)),
      (runPass env ph i cnt pw fs).1.length = fs.length := by
  induction fs with
  | nil => intro i cnt pw; rfl
  | cons f fs ih =>
    intro i cnt pw
    by_cases he : f.status = FlagStatus.eliminated
    · rw [runPass_cons_elim env ph i cnt pw f fs he]
      simp [ih]
    · rw [runPass_cons_other env ph i cnt pw f fs he]
      simp [ih]

theorem runPass_getElem (env : Nat → FrameEvt) (ph : Phase) (fs : List CountryFlag) :
    ∀ (i cnt : Nat) (pw : Option (String × String)) (j : Nat),
      (runPass env ph i cnt pw fs).1[j]? =
        (fs[j]?).map
          (fun f => passFlag (env (i + j)) ph (cnt + activeCount (fs.take (j + 1))) f) := by
  induction fs with
  | nil => intro i cnt pw j; simp [runPass]
  | cons f fs ih =>
    intro i cnt pw j
    by_cases he : f.status = FlagStatus.eliminated
    · rw [runPass_cons_elim env ph i cnt pw f fs he]
      cases j with
      | zero =>
        simp only [List.getElem?_cons_zero]
        show some f =
          some (passFlag (env (i + 0)) ph (cnt + activeCount ((f :: fs).take (0 + 1))) f)
        rw [passFlag_eliminated (env (i + 0)) ph (cnt + activeCount ((f :: fs).take (0 + 1))) f he]
      | succ j =>
        have h1 : i + 1 + j = i + (j + 1) := by omega
        have h2 : activeCount ((f :: fs).take (j + 1 + 1)) = activeCount (fs.take (j + 1)) := by
          rw [List.take_succ_cons, activeCount_cons, he]
          simp
        simp only [List.getElem?_cons_succ]
        rw [ih (i + 1) cnt pw j, h2, h1]
    · rw [runPass_cons_other env ph i cnt pw f fs he]
      cases j with
      | zero =>
        have h2 : cnt + activeCount ((f :: fs).take (0 + 1)) =
            (if f.status = FlagStatus.active then cnt + 1 else cnt) := by
          rw [List.take_succ_cons, List.take_zero, activeCount_cons, activeCount_nil]
          split <;> omega
        simp only [List.getElem?_cons_zero]
        show some (passFlag (env i) ph (if f.status = FlagStatus.active then cnt + 1 else cnt) f) =
          some (passFlag (env (i + 0)) ph (cnt + activeCount ((f :: fs).take (0 + 1))) f)
        rw [h2]
        rfl
      | succ j =>
        have h1 : i + 1 + j = i + (j + 1) := by omega
        have h2 : cnt + activeCount ((f :: fs).take (j + 1 + 1)) =
            (if f.status = FlagStatus.active then cnt + 1 else cnt) +
              activeCount (fs.take (j + 1)) := by
          rw [List.take_succ_cons, activeCount_cons]
          split <;> omega
        simp only [List.getElem?_cons_succ]
        rw [ih (i + 1) _ _ j, h1, h2]

theorem runPass_cnt (env : Nat → FrameEvt) (ph : Phase) (fs : List CountryFlag) :
    ∀ (i cnt : Nat) (pw : Option (String × String)),
      (runPass env ph i cnt pw fs).2.1 = cnt + activeCount fs := by
  induction fs with
  | nil => intro i cnt pw; simp [runPass, activeCount_nil]
  | cons f fs ih =>
    intro i cnt pw
    by_cases he : f.status = FlagStatus.eliminated
    · rw [runPass_cons_elim env ph i cnt pw f fs he]
      show (runPass env ph (i + 1) cnt pw fs).2.1 = cnt + activeCount (f :: fs)
      rw [ih, activeCount_cons, he]
      simp
    · rw [runPass_cons_other env ph i cnt pw f fs he]
      show (runPass env ph (i + 1) (if f.status = FlagStatus.active then cnt + 1 else cnt)
        (if f.status = FlagStatus.active then some (f.code, f.name) else pw) fs).2.1 =
        cnt + activeCount (f :: fs)
      rw [ih, activeCount_cons]
      by_cases hf : f.status = FlagStatus.active
      · simp [hf]
        omega
      · simp [hf]

theorem runPass_pw (env : Nat → FrameEvt) (ph : Phase) (fs : List CountryFlag) :
    ∀ (i cnt : Nat) (pw : Option (String × String)) (w : String × String),
      (runPass env ph i cnt pw fs).2.2 = some w →
        pw = some w ∨ ∃ (j : Nat) (g : CountryFlag), fs[j]? = some g ∧
          g.status = FlagStatus.active ∧ g.code = w.1 ∧ g.name = w.2 := by
  induction fs with
  | nil => intro i cnt pw w h; exact Or.inl h
  | cons f fs ih =>
    intro i cnt pw w h
    by_cases he : f.status = FlagStatus.eliminated
    · rw [runPass_cons_elim env ph i cnt pw f fs he] at h
      rcases ih (i + 1) cnt pw w h with h1 | ⟨j, g, hg1, hg2, hg3, hg4⟩
      · exact Or.inl h1
      · refine Or.inr ⟨j + 1, g, ?_, hg2, hg3, hg4⟩
        rw [List.getElem?_cons_succ]
        exact hg1
    · rw [runPass_cons_other env ph i cnt pw f fs he] at h
      by_cases hf : f.status = FlagStatus.active
      · simp only [if_pos hf] at h
        rcases ih (i + 1) (cnt + 1) (some (f.code, f.name)) w h with h1 | ⟨j, g, hg1, hg2, hg3, hg4⟩
        · have hw : (f.code, f.name) = w := Option.some.inj h1
          refine Or.inr ⟨0, f, List.getElem?_cons_zero, hf, ?_, ?_⟩
          · rw [← hw]
          · rw [← hw]
        · refine Or.inr ⟨j + 1, g, ?_, hg2, hg3, hg4⟩
          rw [List.getElem?_cons_succ]
          exact hg1
      · simp only [if_neg hf] at h
        rcases ih (i + 1) cnt pw w h with h1 | ⟨j, g, hg1, hg2, hg3, hg4⟩
        · exact Or.inl h1
        · refine Or.inr ⟨j + 1, g, ?_, hg2, hg3, hg4⟩
          rw [List.getElem?_cons_succ]
          exact hg1

theorem exists_first_active (fs : List CountryFlag) :
    1 ≤ activeCount fs → ∃ (k : Nat) (g : CountryFlag), fs[k]? = some g ∧
      g.status = FlagStatus.active ∧ activeCount (fs.take (k + 1)) = 1 := by
  induction fs with
  | nil => intro h; simp [activeCount_nil] at h
  | cons f fs ih =>
    intro h
    by_cases hf : f.status = FlagStatus.active
    · refine ⟨0, f, List.getElem?_cons_zero, hf, ?_⟩
      rw [List.take_succ_cons, List.take_zero, activeCount_cons, activeCount_nil, hf]
      simp
    · have h2 : 1 ≤ activeCount fs := by
        rw [activeCount_cons] at h
        simpa [hf] using h
      rcases ih h2 with ⟨k, g, h3, h4, h5⟩
      refine ⟨k + 1, g, ?_, h4, ?_⟩
      · rw [List.getElem?_cons_succ]
        exact h3
      · rw [List.take_succ_cons, activeCount_cons]
        simp [hf, h5]

theorem runPass_formation_flags (env : Nat → FrameEvt) (fs : List CountryFlag) :
    ∀ (i cnt : Nat) (pw : Option (String × String)),
      (runPass env Phase.formation i cnt pw fs).1 = fs := by
  induction fs with
  | nil => intro i cnt pw; rfl
  | cons f fs ih =>
    intro i cnt pw
    by_cases he : f.status = FlagStatus.eliminated
    · rw [runPass_cons_elim env Phase.formation i cnt pw f fs he]
      show f :: (runPass env Phase.formation (i + 1) cnt pw fs).1 = f :: fs
      rw [ih]
    · rw [runPass_cons_other env Phase.formation i cnt pw f fs he]
      show passFlag (env i) Phase.formation _ f ::
        (runPass env Phase.formation (i + 1) _ _ fs).1 = f :: fs
      rw [ih, passFlag_formation]

theorem runPass_codes (env : Nat → FrameEvt) (ph : Phase) (fs : List CountryFlag)
    (i cnt : Nat) (pw : Option (String × String)) :
    (runPass env ph i cnt pw fs).1.map (fun f => f.code) = fs.map (fun f => f.code) := by
  apply List.ext_getElem?
  intro n
  rw [List.getElem?_map, List.getElem?_map, runPass_getElem]
  cases fs[n]? <;> simp [passFlag_code]

theorem runPass_noWinner (env : Nat → FrameEvt) (ph : Phase) (fs : List CountryFlag)
    (i cnt : Nat) (pw : Option (String × String)) (h : noWinnerIn fs) :
    noWinnerIn (runPass env ph i cnt pw fs).1 := by
  intro g hg
  rcases List.mem_iff_getElem?.mp hg with ⟨n, hn⟩
  rw [runPass_getElem] at hn
  rcases hf : fs[n]? with _ | f
  · rw [hf] at hn
    cases hn
  · rw [hf] at hn
    have hmem : f ∈ fs := List.mem_iff_getElem?.mpr ⟨n, hf⟩
    have hne := h f hmem
    have hg2 : g = passFlag (env (i + n)) ph (cnt + activeCount (fs.take (n + 1))) f :=
      (Option.some.inj hn).symm
    rw [hg2]
    exact passFlag_not_winner _ _ _ f hne

theorem frameStep_early (env : Nat → FrameEvt) (s : SimState)
    (h : s.isRunning = false ∨ s.flags = []) : frameStep env s = s := by
  unfold frameStep
  rw [if_pos h]

/-- Full case analysis of one frame: either the early return fires, or the
flags are replaced by the pass output and the winner block either does not
run (all UI state unchanged) or runs with the recorded survivor. -/
theorem frameStep_spec (env : Nat → FrameEvt) (s : SimState) :
    ((s.isRunning = false ∨ s.flags = []) ∧ frameStep env s = s) ∨
    (s.isRunning = true ∧ s.flags ≠ [] ∧
      (frameStep env s).flags = (runPass env s.phase 0 0 none s.flags).1 ∧
      (((frameStep env s).viewFlags = s.viewFlags ∧
        (frameStep env s).winner = s.winner ∧
        (frameStep env s).leaderboard = s.leaderboard ∧
        (frameStep env s).isRunning = s.isRunning) ∨
       (∃ w : String × String,
         (runPass env s.phase 0 0 none s.flags).2.2 = some w ∧
         s.phase = Phase.scatter ∧ activeCount s.flags = 1 ∧
         (frameStep env s).viewFlags = winnerMap w.1 (runPass env s.phase 0 0 none s.flags).1 ∧
         (frameStep env s).winner = some w ∧
         (frameStep env s).leaderboard = updateLeaderboard s.leaderboard w.1 w.2 ∧
         (frameStep env s).isRunning = false))) := by
  by_cases hc : s.isRunning = false ∨ s.flags = []
  · exact Or.inl ⟨hc, frameStep_early env s hc⟩
  · have hrun : s.isRunning = true := by
      cases hb : s.isRunning
      · exact absurd (Or.inl hb) hc
      · rfl
    have hne : s.flags ≠ [] := fun hb => hc (Or.inr hb)
    rcases hm : (runPass env s.phase 0 0 none s.flags).2.2 with _ | w
    · have hstep : frameStep env s =
          { s with flags := (runPass env s.phase 0 0 none s.flags).1,
                   ringAngle := jsRem (s.ringAngle + ROTATION_SPEED) 360 } := by
        unfold frameStep
        rw [if_neg hc]
        dsimp only
        rw [hm]
      rw [hstep]
      exact Or.inr ⟨hrun, hne, rfl, Or.inl ⟨rfl, rfl, rfl, rfl⟩⟩
    · by_cases hfire : s.phase = Phase.scatter ∧ (runPass env s.phase 0 0 none s.flags).2.1 = 1
      · have hstep : frameStep env s =
            { s with
              flags := (runPass env s.phase 0 0 none s.flags).1,
              ringAngle := jsRem (s.ringAngle + ROTATION_SPEED) 360,
              isRunning := false,
              winner := some w,
              leaderboard := updateLeaderboard s.leaderboard w.1 w.2,
              viewFlags := winnerMap w.1 (runPass env s.phase 0 0 none s.flags).1,
              pending := s.pending ++ [Timer.mk s.nextTimerId TimerAction.restartRound 5000],
              nextTimerId := s.nextTimerId + 1 } := by
          unfold frameStep
          rw [if_neg hc]
          dsimp only
          rw [hm]
          dsimp only
          rw [if_pos hfire]
        have hcnt : activeCount s.flags = 1 := by
          have h1 := runPass_cnt env s.phase s.flags 0 0 none
          have h2 := hfire.2
          omega
        rw [hstep]
        exact Or.inr ⟨hrun, hne, rfl, Or.inr ⟨w, rfl, hfire.1, hcnt, rfl, rfl, rfl, rfl⟩⟩
      · have hstep : frameStep env s =
            { s with flags := (runPass env s.phase 0 0 none s.flags).1,
                     ringAngle := jsRem (s.ringAngle + ROTATION_SPEED) 360 } := by
          unfold frameStep
          rw [if_neg hc]
          dsimp only
          rw [hm]
          dsimp only
          rw [if_neg hfire]
        rw [hstep]
        exact Or.inr ⟨hrun, hne, rfl, Or.inl ⟨rfl, rfl, rfl, rfl⟩⟩

/-! ## C1: the elimination guard -/

/-- C1: in a scatter-phase frame step, an active flag is set to `exiting`
only when more than one flag is currently active — a second flag (the
first-counted active one, which the `activeCount > 1` guard forces to
bounce) is still active both before the frame and after it.  When exactly
one flag is active, every active flag survives the pass untouched, and a
frame step never takes the physics flag list from at least one active flag
to zero active flags. -/
theorem c1_elimination_guard (env : Nat → FrameEvt) (s : SimState)
    (_hph : s.phase = Phase.scatter) :
    (∀ (j : Nat) (f g : CountryFlag),
        s.flags[j]? = some f → f.status = FlagStatus.active →
        (frameStep env s).flags[j]? = some g → g.status = FlagStatus.exiting →
        ∃ (k : Nat) (f2 : CountryFlag), k ≠ j ∧ s.flags[k]? = some f2 ∧
          f2.status = FlagStatus.active ∧ (frameStep env s).flags[k]? = some f2) ∧
    (activeCount s.flags = 1 →
      ∀ (j : Nat) (f : CountryFlag), s.flags[j]? = some f → f.status = FlagStatus.active →
        (frameStep env s).flags[j]? = some f) ∧
    (1 ≤ activeCount s.flags → 1 ≤ activeCount (frameStep env s).flags) := by
  rcases frameStep_spec env s with ⟨_, heq⟩ | ⟨_, _, hflags, _⟩
  · rw [heq]
    refine ⟨?_, ?_, ?_⟩
    · intro j f g h1 h2 h3 h4
      rw [h1] at h3
      have hfg : f = g := Option.some.inj h3
      rw [← hfg] at h4
      rw [h2] at h4
      exact FlagStatus.noConfusion h4
    · intro _ j f h1 _
      exact h1
    · intro h
      exact h
  · refine ⟨?_, ?_, ?_⟩
    · intro j f g h1 h2 h3 h4
      have h3run : (runPass env s.phase 0 0 none s.flags).1[j]? = some g := by
        rw [← hflags]
        exact h3
      have hpass : (runPass env s.phase 0 0 none s.flags).1[j]? =
          some (passFlag (env (0 + j)) s.phase (0 + activeCount (s.flags.take (j + 1))) f) := by
        rw [runPass_getElem, h1]
        rfl
      have hg : passFlag (env (0 + j)) s.phase (0 + activeCount (s.flags.take (j + 1))) f = g :=
        Option.some.inj (hpass.symm.trans h3run)
      have hstat : (passFlag (env (0 + j)) s.phase
          (0 + activeCount (s.flags.take (j + 1))) f).status = FlagStatus.exiting := by
        rw [hg, h4]
      have hguard := passFlag_exit_guard _ _ _ f h2 hstat
      have h2cnt : 2 ≤ activeCount (s.flags.take (j + 1)) := by
        have h3c := hguard.2.2.1
        omega
      have h1le : 1 ≤ activeCount s.flags := by
        have := activeCount_take_le s.flags (j + 1)
        omega
      rcases exists_first_active s.flags h1le with ⟨k, f2, hk1, hk2, hk3⟩
      have hkout : (runPass env s.phase 0 0 none s.flags).1[k]? = some f2 := by
        rw [runPass_getElem, hk1]
        show some (passFlag (env (0 + k)) s.phase (0 + activeCount (s.flags.take (k + 1))) f2) =
          some f2
        rw [passFlag_active_bounce _ _ _ f2 hk2 (by omega)]
      have hkj : k ≠ j := by
        intro hkeq
        rw [hkeq] at hkout
        have hfg2 : f2 = g := Option.some.inj (hkout.symm.trans h3run)
        rw [hfg2] at hk2
        rw [h4] at hk2
        exact FlagStatus.noConfusion hk2
      refine ⟨k, f2, hkj, hk1, hk2, ?_⟩
      rw [hflags]
      exact hkout
    · intro hone j f h1 h2
      rw [hflags, runPass_getElem, h1]
      have htle : activeCount (s.flags.take (j + 1)) ≤ activeCount s.flags :=
        activeCount_take_le s.flags (j + 1)
      show some (passFlag (env (0 + j)) s.phase (0 + activeCount (s.flags.take (j + 1))) f) =
        some f
      rw [passFlag_active_bounce _ _ _ f h2 (by omega)]
    · intro h1le
      rw [hflags]
      rcases exists_first_active s.flags h1le with ⟨k, f2, hk1, hk2, hk3⟩
      have hkout : (runPass env s.phase 0 0 none s.flags).1[k]? = some f2 := by
        rw [runPass_getElem, hk1]
        show some (passFlag (env (0 + k)) s.phase (0 + activeCount (s.flags.take (k + 1))) f2) =
          some f2
        rw [passFlag_active_bounce _ _ _ f2 hk2 (by omega)]
      have hmem : f2 ∈ (runPass env s.phase 0 0 none s.flags).1 := by
        rcases List.getElem?_eq_some_iff.mp hkout with ⟨hlt, hget⟩
        exact hget ▸ List.getElem_mem hlt
      have hpos : 0 < List.countP (fun f => decide (f.status = FlagStatus.active))
          (runPass env s.phase 0 0 none s.flags).1 :=
        List.countP_pos_iff.mpr ⟨f2, hmem, by simp [hk2]⟩
      exact hpos

theorem c1_witness :
    c1demoState.phase = Phase.scatter ∧ 1 ≤ activeCount c1demoState.flags ∧
      1 ≤ activeCount (frameStep demoEnvGapAt1 c1demoState).flags :=
  ⟨rfl, by decide, (c1_elimination_guard demoEnvGapAt1 c1demoState rfl).2.2 (by decide)⟩

/-! ## Winner bookkeeping helpers -/

theorem runPass_nodupCodes (env : Nat → FrameEvt) (ph : Phase) (fs : List CountryFlag)
    (i cnt : Nat) (pw : Option (String × String)) (h : NodupCodes fs) :
    NodupCodes (runPass env ph i cnt pw fs).1 := by
  unfold NodupCodes at h ⊢
  rw [runPass_codes]
  exact h

/-- When exactly one flag is active at frame start and the pass records the
survivor `w`, every flag of the pass output carrying the survivor's code is
(still) active — there is exactly one such flag, the survivor itself, which
the `activeCount > 1` guard protected from elimination. -/
theorem runPass_code_active_unique (env : Nat → FrameEvt) (s : SimState) (w : String × String)
    (hnd : NodupCodes s.flags) (hone : activeCount s.flags = 1)
    (hpw : (runPass env s.phase 0 0 none s.flags).2.2 = some w) :
    ∀ (j : Nat) (g : CountryFlag),
      (runPass env s.phase 0 0 none s.flags).1[j]? = some g → g.code = w.1 →
      g.status = FlagStatus.active := by
  rcases runPass_pw env s.phase s.flags 0 0 none w hpw with h1 | ⟨jw, fw, hw1, hw2, hw3, hw4⟩
  · cases h1
  · have hwout : (runPass env s.phase 0 0 none s.flags).1[jw]? = some fw := by
      rw [runPass_getElem, hw1]
      show some (passFlag (env (0 + jw)) s.phase
        (0 + activeCount (s.flags.take (jw + 1))) fw) = some fw
      have := activeCount_take_le s.flags (jw + 1)
      rw [passFlag_active_bounce _ _ _ fw hw2 (by omega)]
    intro j g hj hcode
    have hndout : ((runPass env s.phase 0 0 none s.flags).1.map (fun f => f.code)).Nodup := by
      rw [runPass_codes]
      exact hnd
    have hmj : ((runPass env s.phase 0 0 none s.flags).1.map (fun f => f.code))[j]? =
        some w.1 := by
      rw [List.getElem?_map, hj]
      simp [hcode]
    have hmjw : ((runPass env s.phase 0 0 none s.flags).1.map (fun f => f.code))[jw]? =
        some w.1 := by
      rw [List.getElem?_map, hwout]
      simp [hw3]
    have hlt : j < ((runPass env s.phase 0 0 none s.flags).1.map (fun f => f.code)).length := by
      rcases List.getElem?_eq_some_iff.mp hmj with ⟨hl, _⟩
      exact hl
    have hjeq : j = jw := List.getElem?_inj hlt hndout (hmj.trans hmjw.symm)
    rw [hjeq] at hj
    have hgf : g = fw := Option.some.inj (hj.symm.trans hwout)
    rw [hgf]
    exact hw2

/-- Marking the winner's code in a list that has pairwise-distinct codes
and no winner yet produces at most one flag with status `winner`. -/
theorem winnerMap_winnersCount (c : String) (fs : List CountryFlag)
    (hnw : noWinnerIn fs) (hnd : NodupCodes fs) :
    winnersCount (winnerMap c fs) ≤ 1 := by
  rw [winnersCount, winnerMap, List.countP_map]
  have hcong : List.countP ((fun f => decide (f.status = FlagStatus.winner)) ∘
      (fun f => if f.code = c then { f with status := FlagStatus.winner } else f)) fs =
      List.countP (fun f => decide (f.code = c)) fs := by
    apply List.countP_congr
    intro f hf
    by_cases hc : f.code = c
    · simp [hc]
    · simp [hc, hnw f hf]
  rw [hcong]
  have hcount : List.countP (fun f => decide (f.code = c)) fs =
      List.count c (fs.map (fun f => f.code)) := by
    rw [List.count_eq_countP, List.countP_map]
    apply List.countP_congr
    intro f _
    simp
  rw [hcount]
  exact List.nodup_iff_count_le_one.mp hnd c

/-! ## C3: the single-survivor handler fires at most once -/

/-- C3: a frame with `isRunning = false` changes nothing; when a frame
changes the winner or the leaderboard, the single-survivor block must have
run, which requires `isRunning = true`, scatter phase and exactly one
active flag, and its effect includes `isRunning = false`, after which any
further frame is the identity — so the winner assignment, leaderboard
update and restart scheduling cannot run twice in a round; and the frame
leaves at most one flag with status `winner` in the published flag list. -/
theorem c3_single_fire (env env2 : Nat → FrameEvt) (s : SimState)
    (hnd : NodupCodes s.flags) (hnw : noWinnerIn s.flags) :
    (s.isRunning = false → frameStep env s = s) ∧
    ((frameStep env s).winner ≠ s.winner ∨ (frameStep env s).leaderboard ≠ s.leaderboard →
      s.isRunning = true ∧ s.phase = Phase.scatter ∧ activeCount s.flags = 1 ∧
      (frameStep env s).isRunning = false ∧
      frameStep env2 (frameStep env s) = frameStep env s) ∧
    ((frameStep env s).viewFlags = s.viewFlags ∨
      winnersCount (frameStep env s).viewFlags ≤ 1) := by
  refine ⟨fun h => frameStep_early env s (Or.inl h), ?_, ?_⟩
  · rcases frameStep_spec env s with ⟨_, heq⟩ | ⟨hrun, _, _, hrest⟩
    · rw [heq]
      intro hch
      rcases hch with h | h
      · exact absurd rfl h
      · exact absurd rfl h
    · rcases hrest with ⟨_, hw, hl, _⟩ | ⟨w, _, hph, hone, _, _, _, hrun0⟩
      · intro hch
        rcases hch with h | h
        · exact absurd hw h
        · exact absurd hl h
      · intro _
        exact ⟨hrun, hph, hone, hrun0,
          frameStep_early env2 (frameStep env s) (Or.inl hrun0)⟩
  · rcases frameStep_spec env s with ⟨_, heq⟩ | ⟨_, _, _, hrest⟩
    · rw [heq]
      exact Or.inl rfl
    · rcases hrest with ⟨hv, _, _, _⟩ | ⟨w, hm, _, _, hvw, _, _, _⟩
      · exact Or.inl hv
      · right
        rw [hvw]
        exact winnerMap_winnersCount w.1 (runPass env s.phase 0 0 none s.flags).1
          (runPass_noWinner env s.phase s.flags 0 0 none hnw)
          (runPass_nodupCodes env s.phase s.flags 0 0 none hnd)

theorem c3_witness :
    c3demoState.isRunning = true ∧ c3demoState.phase = Phase.scatter ∧
      activeCount c3demoState.flags = 1 ∧
      (frameStep demoEnvNone c3demoState).isRunning = false ∧
      frameStep demoEnvNone (frameStep demoEnvNone c3demoState) =
        frameStep demoEnvNone c3demoState :=
  (c3_single_fire demoEnvNone demoEnvNone c3demoState
      (by unfold NodupCodes; decide) (by unfold noWinnerIn; decide)).2.1
    (Or.inl (by decide))

/-! ## C9: statuses only move forward -/

/-- C9: within one frame, every flag's status follows the forward-only
relation (stay, `active → exiting`, `active → winner`,
`exiting → eliminated`): the physics pass never moves a status backward,
the winner assignment only upgrades the sole surviving active flag (the
published list is otherwise the pass output), and the only bulk backward
change is `initializeGame`, which resets every flag of the new roster to
`active`. -/
theorem c9_status_monotone (env : Nat → FrameEvt) (s : SimState)
    (hnd : NodupCodes s.flags) (_hnw : noWinnerIn s.flags) :
    (∀ (j : Nat) (f g : CountryFlag), s.flags[j]? = some f →
        (frameStep env s).flags[j]? = some g → statusStepOK f.status g.status) ∧
    ((frameStep env s).viewFlags = s.viewFlags ∨
      ∀ (j : Nat) (g h : CountryFlag), (frameStep env s).flags[j]? = some g →
        (frameStep env s).viewFlags[j]? = some h → statusStepOK g.status h.status) ∧
    (∀ (roster : List (String × String)) (s0 : SimState) (j : Nat) (f : CountryFlag),
        (initializeGame roster s0).flags[j]? = some f → f.status = FlagStatus.active) := by
  refine ⟨?_, ?_, ?_⟩
  · rcases frameStep_spec env s with ⟨_, heq⟩ | ⟨_, _, hflags, _⟩
    · rw [heq]
      intro j f g h1 h2
      rw [h1] at h2
      rw [Option.some.inj h2]
      exact Or.inl rfl
    · intro j f g h1 h2
      rw [hflags, runPass_getElem, h1] at h2
      have hg : passFlag (env (0 + j)) s.phase (0 + activeCount (s.flags.take (j + 1))) f = g :=
        Option.some.inj h2
      rw [← hg]
      exact passFlag_stepOK _ _ _ f
  · rcases frameStep_spec env s with ⟨_, heq⟩ | ⟨_, _, hflags, hrest⟩
    · rw [heq]
      exact Or.inl rfl
    · rcases hrest with ⟨hv, _, _, _⟩ | ⟨w, hm, _, hone, hvw, _, _, _⟩
      · exact Or.inl hv
      · right
        intro j g h hg hh
        rw [hflags] at hg
        rw [hvw, winnerMap, List.getElem?_map, hg] at hh
        have hφ : (if g.code = w.1 then { g with status := FlagStatus.winner } else g) = h :=
          Option.some.inj hh
        by_cases hc : g.code = w.1
        · have hact : g.status = FlagStatus.active :=
            runPass_code_active_unique env s w hnd hone hm j g hg hc
          rw [if_pos hc] at hφ
          rw [← hφ]
          exact Or.inr (Or.inr (Or.inl ⟨hact, rfl⟩))
        · rw [if_neg hc] at hφ
          rw [hφ]
          exact Or.inl rfl
  · intro roster s0 j f hf
    rw [show (initializeGame roster s0).flags =
      roster.map (fun c => CountryFlag.mk c.1 c.2 FlagStatus.active) from rfl] at hf
    rw [List.getElem?_map] at hf
    rcases hr : roster[j]? with _ | c
    · rw [hr] at hf
      cases hf
    · rw [hr] at hf
      have hc : CountryFlag.mk c.1 c.2 FlagStatus.active = f := Option.some.inj hf
      rw [← hc]

theorem c9_witness :
    statusStepOK (CountryFlag.mk "us" "USA" FlagStatus.active).status
      (CountryFlag.mk "us" "USA" FlagStatus.active).status :=
  (c9_status_monotone demoEnvNone c3demoState
      (by unfold NodupCodes; decide) (by unfold noWinnerIn; decide)).1 0
    (CountryFlag.mk "us" "USA" FlagStatus.active)
    (CountryFlag.mk "us" "USA" FlagStatus.active)
    (by decide) (by decide)

/-! ## C6: round initialization -/

/-- C6: after `initializeGame`, the gap is the topmost 45° of the local
frame `[315, 360)`, phase is `formation`, the ring angle is 0, the loop is
running, the winner is cleared, the flag list is the shuffled roster in
order with every status `active`, and the formation→scatter transition is
scheduled with a 2000 ms delay (its handle kept in `startTimeoutRef`);
participant `i` of `total` is placed by `formationPos` at angle
`2π·i/total` on the circle of radius `INITIAL_RADIUS = 95`, so its
distance from the center is exactly `INITIAL_RADIUS`. -/
theorem c6_initialize_postconditions :
    (∀ (roster : List (String × String)) (s : SimState),
      (initializeGame roster s).gapStart = 315 ∧
      (initializeGame roster s).gapEnd = 360 ∧
      (initializeGame roster s).gapEnd - (initializeGame roster s).gapStart = 45 ∧
      (initializeGame roster s).phase = Phase.formation ∧
      (initializeGame roster s).ringAngle = 0 ∧
      (initializeGame roster s).isRunning = true ∧
      (initializeGame roster s).winner = none ∧
      (initializeGame roster s).flags.length = roster.length ∧
      (∀ i : Nat,
        (initializeGame roster s).flags.getD i (CountryFlag.mk "" "" FlagStatus.active) =
          CountryFlag.mk (roster.getD i ("", "")).1 (roster.getD i ("", "")).2
            FlagStatus.active) ∧
      (initializeGame roster s).pending.getLast? =
        some (Timer.mk s.nextTimerId TimerAction.phaseToScatter 2000) ∧
      (initializeGame roster s).startTimeoutId = some s.nextTimerId) ∧
    (∀ total i : ℕ,
      (formationPos total i).1 ^ 2 + (formationPos total i).2 ^ 2 = INITIAL_RADIUS ^ 2 ∧
      formationPos total i =
        (INITIAL_RADIUS * Real.cos (2 * Real.pi * i / total),
         INITIAL_RADIUS * Real.sin (2 * Real.pi * i / total))) := by
  refine ⟨?_, ?_⟩
  · intro roster s
    refine ⟨?_, rfl, ?_, rfl, rfl, rfl, rfl, ?_, ?_, ?_, rfl⟩
    · show (360 : ℚ) - 45 = 315
      norm_num
    · show (360 : ℚ) - (360 - 45) = 45
      norm_num
    · rw [show (initializeGame roster s).flags =
        roster.map (fun c => CountryFlag.mk c.1 c.2 FlagStatus.active) from rfl]
      exact List.length_map roster _
    · intro i
      rw [show (initializeGame roster s).flags =
        roster.map (fun c => CountryFlag.mk c.1 c.2 FlagStatus.active) from rfl]
      rw [List.getD_eq_getElem?_getD, List.getD_eq_getElem?_getD, List.getElem?_map]
      rcases hr : roster[i]? with _ | c <;> rfl
    · rw [show (initializeGame roster s).pending =
        (match s.startTimeoutId with
          | some h => s.pending.filter (fun t => decide (t.id ≠ h))
          | none => s.pending) ++
          [Timer.mk s.nextTimerId TimerAction.phaseToScatter 2000] from rfl]
      exact List.getLast?_concat _
  · intro total i
    constructor
    · have h := Real.cos_sq_add_sin_sq (((i : ℝ) / (total : ℝ)) * (2 * Real.pi))
      simp only [formationPos]
      linear_combination INITIAL_RADIUS ^ 2 * h
    · simp only [formationPos]
      have harg : ((i : ℝ) / (total : ℝ)) * (2 * Real.pi) = 2 * Real.pi * i / total := by
        ring
      rw [harg]

/-! ## C2: the restart timeout is not cancellable -/

/-- C2 (refuting the claim on the code): after the win in `c2s4`, the
restart timeout (handle 1) is pending; the forced new round `c2s5 =
initializeGame …` does NOT cancel it — the source stores only the
formation-timer handle in `startTimeoutRef` and discards the restart
`setTimeout` handle — so after the new round has even advanced to scatter
phase (`c2s6`), delivering the stale handle 1 re-runs `initializeGame` and
wipes the round back to formation (`c2s7`). -/
theorem c2_stale_restart_fires :
    (c2s5.pending.filter (fun t => decide (t.action = TimerAction.restartRound))).length = 1 ∧
    c2s5.isRunning = true ∧ c2s5.phase = Phase.formation ∧
    c2s6.phase = Phase.scatter ∧ c2s6.isRunning = true ∧
    c2s6.startTimeoutId = some 2 ∧
    c2s7.phase = Phase.formation ∧ c2s7.startTimeoutId = some 3 ∧
    c2s4.winner = some ("us", "USA") := by
  refine ⟨?_, ?_, ?_, ?_, ?_, ?_, ?_, ?_, ?_⟩ <;> decide
